import Mathlib

/-!
Verification development for the go-dig DNS lookup utility.

The definitions below are a shallow embedding of the program's core:
the error classifier (`pkg/errors`: `ValidateDomain`, `ValidateRecordType`,
`ValidateDNSServer`, `ValidateDNSPort`, `ClassifyNetworkError`) and the
resolver client (`pkg/dns/client.go`: `Query` with its server-address
normalization, response-code interpretation and record extraction).

Modelling conventions:
- Go strings are modelled as Lean `String`; character-level operations work
  on `String.data` (the list of characters).  Byte lengths (`len` in Go) are
  modelled by summing UTF-8 sizes of the characters, which coincides with
  Go's byte length on every valid-UTF-8 string.
- Go's `strings.ToUpper`/`ToLower` are modelled with `Char.toUpper`/
  `Char.toLower` (ASCII case mapping); they agree with Go on ASCII input,
  which is the only case the program's comparisons depend on.
- Go `error` values that the program only stores or inspects textually are
  modelled as `String` (the text `Error()` would return); a nullable error
  is `Option String`.
- The single network exchange performed by `Query` and the operating-system
  resolver discovery are external effects; their outcomes are passed in as
  explicit parameters (`Env`), so `Query` is a pure function of its inputs
  and of the modelled outside world.
-/

/-! ### Go string primitives (models of the `strings` package helpers) -/

/-- Byte length of a character list (Go `len` on the UTF-8 encoded string). -/
def golenL : List Char → Nat
  | [] => 0
  | c :: rest => c.utf8Size + golenL rest

/-- Byte length of a string, Go's `len(s)`. -/
def golen (s : String) : Nat := golenL s.data

/-- Model of Go `strings.HasPrefix` on character lists. -/
def goHasPrefixL : List Char → List Char → Bool
  | _, [] => true
  | [], _ :: _ => false
  | c :: cs, p :: ps => c = p && goHasPrefixL cs ps

/-- Model of Go `strings.HasSuffix` on character lists. -/
def goHasSuffixL (l suf : List Char) : Bool :=
  goHasPrefixL l.reverse suf.reverse

/-- Model of Go `strings.Contains` on character lists (`sub` occurs in the list). -/
def goContainsL (sub : List Char) : List Char → Bool
  | [] => sub.isEmpty
  | c :: cs => goHasPrefixL (c :: cs) sub || goContainsL sub cs

/-- Model of Go `strings.HasPrefix`. -/
def goHasPrefix (s p : String) : Bool := goHasPrefixL s.data p.data

/-- Model of Go `strings.Contains`. -/
def goContains (s sub : String) : Bool := goContainsL sub.data s.data

/-- Model of Go `strings.ToUpper` (ASCII case mapping, see header). -/
def goToUpper (s : String) : String := String.mk (s.data.map Char.toUpper)

/-- Model of Go `strings.ToLower` (ASCII case mapping, see header). -/
def goToLower (s : String) : String := String.mk (s.data.map Char.toLower)

/-- Model of Go `strings.Join`. -/
def goJoin (sep : String) : List String → String
  | [] => ""
  | [x] => x
  | x :: rest => x ++ sep ++ goJoin sep rest

/-- Model of Go `strings.Split(s, ".")` on character lists.  The result is
never empty: splitting the empty string yields `[[]]`. -/
def splitOnDot : List Char → List (List Char)
  | [] => [[]]
  | c :: rest =>
    match splitOnDot rest with
    | [] => if c = '.' then [[], []] else [[c]]
    | h :: t => if c = '.' then [] :: h :: t else (c :: h) :: t

/-- Index of the first occurrence of a character (Go `strings.IndexByte`). -/
def firstIdxOf (c : Char) : List Char → Option Nat
  | [] => none
  | x :: rest =>
    if x = c then some 0
    else match firstIdxOf c rest with
      | none => none
      | some i => some (i + 1)

/-- Index of the last occurrence of a character (Go `last` helper in `net`). -/
def lastIdxOf (c : Char) (l : List Char) : Option Nat :=
  match firstIdxOf c l.reverse with
  | none => none
  | some i => some (l.length - 1 - i)

/-! ### The error model (`pkg/errors`, `ErrorType` and `DigError`) -/

/-- `ErrorType` from pkg/errors: the closed taxonomy of failure kinds. -/
inductive ErrorType where
  | Input
  | Network
  | DNS
  | System
deriving DecidableEq, Repr

/-- `DigError` from pkg/errors.  The wrapped `Cause` is modelled by the text
of the underlying error (`none` for a nil cause); `Domain`/`Server` default
to the empty string exactly like Go's zero values. -/
structure DigError where
  type : ErrorType
  message : String
  cause : Option String
  domain : String
  server : String
deriving DecidableEq, Repr

/-- `NewInputError` from pkg/errors. -/
def NewInputError (message : String) (cause : Option String) : DigError :=
  { type := ErrorType.Input, message := message, cause := cause, domain := "", server := "" }

/-- `NewNetworkError` from pkg/errors. -/
def NewNetworkError (message : String) (cause : Option String) (server : String) : DigError :=
  { type := ErrorType.Network, message := message, cause := cause, domain := "", server := server }

/-- `NewDNSError` from pkg/errors. -/
def NewDNSError (message : String) (cause : Option String) (domain server : String) : DigError :=
  { type := ErrorType.DNS, message := message, cause := cause, domain := domain, server := server }

/-- `NewSystemError` from pkg/errors. -/
def NewSystemError (message : String) (cause : Option String) : DigError :=
  { type := ErrorType.System, message := message, cause := cause, domain := "", server := "" }

/-! ### `ClassifyNetworkError` (pkg/errors) -/

/-- Body of `ClassifyNetworkError` for a non-nil error argument: the
case-insensitive substring cascade over the error's text. -/
def classifyNetworkErrorNonNil (errText server : String) : DigError :=
  if goContains (goToLower errText) "timeout" || goContains (goToLower errText) "deadline exceeded" then
    NewNetworkError "DNS server timeout - server may be unreachable or overloaded" (some errText) server
  else if goContains (goToLower errText) "connection refused" then
    NewNetworkError "DNS server refused connection - server may be down or not accepting queries" (some errText) server
  else if goContains (goToLower errText) "no such host" then
    NewNetworkError "DNS server hostname could not be resolved" (some errText) server
  else if goContains (goToLower errText) "network unreachable" then
    NewNetworkError "Network unreachable - check your internet connection" (some errText) server
  else if goContains (goToLower errText) "permission denied" then
    NewNetworkError "Permission denied - may need elevated privileges" (some errText) server
  else
    NewNetworkError "Network error occurred while contacting DNS server" (some errText) server

/-- `ClassifyNetworkError` from pkg/errors: nil input passes through as nil. -/
def ClassifyNetworkError (err : Option String) (server : String) : Option DigError :=
  match err with
  | none => none
  | some errText => some (classifyNetworkErrorNonNil errText server)

/-! ### `ValidateDomain` (pkg/errors) -/

/-- The character test in `ValidateDomain`'s scanning loop. -/
def allowedDomainChar (c : Char) : Bool :=
  ('a' ≤ c && c ≤ 'z') || ('A' ≤ c && c ≤ 'Z') ||
  ('0' ≤ c && c ≤ '9') || c = '.' || c = '-' || c = '_'

/-- The `for i, r := range domain` scan of `ValidateDomain`: first character
outside the allowed set, together with its byte offset. -/
def findInvalidChar : List Char → Nat → Option (Char × Nat)
  | [], _ => none
  | c :: rest, i =>
    if allowedDomainChar c then findInvalidChar rest (i + c.utf8Size)
    else some (c, i)

/-- The `allNumeric` loop of `ValidateDomain` on one label. -/
def allNumericL (l : List Char) : Bool :=
  l.all (fun c => '0' ≤ c && c ≤ '9')

/-- The per-label checks inside `ValidateDomain`'s label loop (everything
except the all-numeric TLD test). -/
def labelErr (label : List Char) : Option DigError :=
  if label = [] then some (NewInputError "domain cannot have empty labels" none)
  else if golenL label > 63 then
    some (NewInputError ("domain label \x27" ++ String.mk label ++ "\x27 too long (" ++
      toString (golenL label) ++ " characters, max 63)") none)
  else if goHasPrefixL label ['-'] || goHasSuffixL label ['-'] then
    some (NewInputError ("domain label \x27" ++ String.mk label ++
      "\x27 cannot start or end with hyphen") none)
  else if goHasSuffixL label ['_'] then
    some (NewInputError ("domain label \x27" ++ String.mk label ++
      "\x27 cannot end with underscore") none)
  else none

/-- `ValidateDomain`'s label loop: the index comparison `i == len(labels)-1`
of the Go loop is rendered as structural recursion (the all-numeric test
runs only on the final label). -/
def checkLabelsGo : List (List Char) → Option DigError
  | [] => none
  | [label] =>
    match labelErr label with
    | some e => some e
    | none =>
      if allNumericL label then
        some (NewInputError "top-level domain cannot be all numeric" none)
      else none
  | label :: rest =>
    match labelErr label with
    | some e => some e
    | none => checkLabelsGo rest

/-- `ValidateDomain` from pkg/errors. -/
def ValidateDomain (domain : String) : Option DigError :=
  if domain = "" then some (NewInputError "domain name cannot be empty" none)
  else if golen domain > 253 then
    some (NewInputError ("domain name too long (" ++ toString (golen domain) ++
      " characters, max 253)") none)
  else
    match findInvalidChar domain.data 0 with
    | some (c, i) =>
      some (NewInputError ("domain contains invalid character \x27" ++ String.mk [c] ++
        "\x27 at position " ++ toString (i + 1)) none)
    | none =>
      if goContainsL ['.', '.'] domain.data then
        some (NewInputError "domain cannot contain consecutive dots" none)
      else if goHasPrefixL domain.data ['.'] || goHasSuffixL domain.data ['.'] then
        some (NewInputError "domain cannot start or end with a dot" none)
      else if goHasPrefixL domain.data ['-'] || goHasSuffixL domain.data ['-'] then
        some (NewInputError "domain cannot start or end with a hyphen" none)
      else if goHasSuffixL domain.data ['_'] then
        some (NewInputError "domain cannot end with an underscore" none)
      else checkLabelsGo (splitOnDot domain.data)

/-! ### `ValidateRecordType` and `ValidateDNSPort` (pkg/errors) -/

/-- `ValidateRecordType` from pkg/errors; the Go map lookup over the five
valid types is rendered as a disjunction. -/
def ValidateRecordType (recordType : String) : Option DigError :=
  if recordType = "" then some (NewInputError "record type cannot be empty" none)
  else if goToUpper recordType = "A" || goToUpper recordType = "AAAA" ||
      goToUpper recordType = "MX" || goToUpper recordType = "CNAME" ||
      goToUpper recordType = "TXT" then none
  else
    some (NewInputError ("unsupported record type \x27" ++ goToUpper recordType ++
      "\x27 (supported: A, AAAA, MX, CNAME, TXT)") none)

/-- The digit-accumulating loop of `ValidateDNSPort`. -/
def portLoop (port : String) : List Char → Nat → Option DigError
  | [], portNum =>
    if portNum < 1 || portNum > 65535 then
      some (NewInputError ("DNS server port \x27" ++ port ++
        "\x27 is out of range (1-65535)") none)
    else none
  | c :: rest, portNum =>
    if c < '0' || c > '9' then
      some (NewInputError ("DNS server port \x27" ++ port ++ "\x27 must be numeric") none)
    else
      let portNum := portNum * 10 + (c.toNat - '0'.toNat)
      if portNum > 65535 then
        some (NewInputError ("DNS server port \x27" ++ port ++
          "\x27 is out of range (1-65535)") none)
      else portLoop port rest portNum

/-- `ValidateDNSPort` from pkg/errors. -/
def ValidateDNSPort (port : String) : Option DigError :=
  if port = "" then some (NewInputError "DNS server port cannot be empty" none)
  else portLoop port port.data 0

/-! ### Model of `net.ParseIP` and friends (Go standard library)

`Query` and `ValidateDNSServer` depend on `net.ParseIP`, `net.SplitHostPort`
and `net.IP` predicates.  These external collaborators are modelled after
the Go standard library: an IP is its 16-byte representation (IPv4
addresses are stored in IPv4-in-IPv6 mapped form, exactly like `net.IPv4`),
so `net.IP.Equal` becomes plain list equality. -/

/-- Go `net`'s `dtoi`: parse a decimal prefix (accumulator, byte count, ok). -/
def dtoiAux : List Char → Nat → Nat → Nat × Nat × Bool
  | [], n, i => if i = 0 then (0, 0, false) else (n, i, true)
  | c :: rest, n, i =>
    if '0' ≤ c && c ≤ '9' then
      let n := n * 10 + (c.toNat - '0'.toNat)
      if n ≥ 0xFFFFFF then (0xFFFFFF, i, false)
      else dtoiAux rest n (i + 1)
    else if i = 0 then (0, 0, false)
    else (n, i, true)

/-- Go `net`'s `dtoi` entry point. -/
def dtoi (s : List Char) : Nat × Nat × Bool := dtoiAux s 0 0

/-- Go `net`'s `xtoi`: parse a hexadecimal prefix. -/
def xtoiAux : List Char → Nat → Nat → Nat × Nat × Bool
  | [], n, i => if i = 0 then (0, 0, false) else (n, i, true)
  | c :: rest, n, i =>
    if '0' ≤ c && c ≤ '9' then
      let n := n * 16 + (c.toNat - '0'.toNat)
      if n ≥ 0xFFFFFF then (0, i, false) else xtoiAux rest n (i + 1)
    else if 'a' ≤ c && c ≤ 'f' then
      let n := n * 16 + (c.toNat - 'a'.toNat) + 10
      if n ≥ 0xFFFFFF then (0, i, false) else xtoiAux rest n (i + 1)
    else if 'A' ≤ c && c ≤ 'F' then
      let n := n * 16 + (c.toNat - 'A'.toNat) + 10
      if n ≥ 0xFFFFFF then (0, i, false) else xtoiAux rest n (i + 1)
    else if i = 0 then (0, 0, false)
    else (n, i, true)

/-- Go `net`'s `xtoi` entry point. -/
def xtoi (s : List Char) : Nat × Nat × Bool := xtoiAux s 0 0

/-- `net.IPv4 a b c d`: the 16-byte IPv4-in-IPv6 mapped representation. -/
def v4mapped (a b c d : Nat) : List Nat :=
  [0, 0, 0, 0, 0, 0, 0, 0, 0, 0, 255, 255, a, b, c, d]

/-- One dotted-decimal field of `parseIPv4`: value at most 255 and no
leading zero. -/
def parseV4Field (s : List Char) : Option (Nat × List Char) :=
  match dtoi s with
  | (n, c, ok) =>
    if !ok || n > 0xFF then none
    else if c > 1 && s.head? = some '0' then none
    else some (n, s.drop c)

/-- The `.` separator between dotted-decimal fields. -/
def expectDot : List Char → Option (List Char)
  | '.' :: r => some r
  | _ => none

/-- Go `net`'s `parseIPv4` (returned in 16-byte mapped form like `net.IPv4`). -/
def parseIPv4go (s : List Char) : Option (List Nat) := do
  let (b0, s) ← parseV4Field s
  let s ← expectDot s
  let (b1, s) ← parseV4Field s
  let s ← expectDot s
  let (b2, s) ← parseV4Field s
  let s ← expectDot s
  let (b3, s) ← parseV4Field s
  if s = [] then some (v4mapped b0 b1 b2 b3) else none

/-- Go `net`'s `parseIPv6` main loop.  State: remaining input, byte index
`i`, bytes accumulated so far, position of an already-seen `::` (if any).
The fuel only bounds the recursion; `i` grows by 2 on every recursive call,
so fuel 9 is never exhausted from `i = 0`. -/
def parseIPv6Loop : Nat → List Char → Nat → List Nat → Option Nat →
    Option (List Nat × Nat × Option Nat × List Char)
  | 0, _, _, _, _ => none
  | fuel + 1, s, i, acc, ell =>
    if 16 ≤ i then some (acc, i, ell, s)
    else
      match xtoi s with
      | (n, c, ok) =>
        if !ok || n > 0xFFFF || c > 4 then none
        else if c < s.length && s.get? c = some '.' then
          -- trailing embedded IPv4 address
          if ell = none && i ≠ 12 then none
          else if i + 4 > 16 then none
          else
            match parseIPv4go s with
            | none => none
            | some ip4 => some (acc ++ ip4.drop 12, i + 4, ell, [])
        else
          let acc := acc ++ [n / 256, n % 256]
          let i := i + 2
          let s := s.drop c
          if s = [] then some (acc, i, ell, [])
          else if s.head? ≠ some ':' || s.length = 1 then none
          else
            let s := s.drop 1
            if s.head? = some ':' then
              if ell ≠ none then none
              else
                let s := s.drop 1
                if s = [] then some (acc, i, some i, [])
                else parseIPv6Loop fuel s i acc (some i)
            else parseIPv6Loop fuel s i acc ell

/-- Go `net`'s `parseIPv6`: leading `::` handling, the group loop, then the
expansion of `::` into the missing zero bytes. -/
def parseIPv6go (s : List Char) : Option (List Nat) :=
  let hasEll := goHasPrefixL s [':', ':']
  let s0 := if hasEll then s.drop 2 else s
  if hasEll && s0.isEmpty then some (List.replicate 16 0)
  else
    match parseIPv6Loop 9 s0 0 [] (if hasEll then some 0 else none) with
    | none => none
    | some (acc, i, ell, srem) =>
      if srem ≠ [] then none
      else if i < 16 then
        match ell with
        | none => none
        | some e => some (acc.take e ++ List.replicate (16 - i) 0 ++ acc.drop e)
      else
        match ell with
        | some _ => none
        | none => some acc

/-- The dispatch loop of `net.ParseIP`: the first `.` or `:` in the string
selects the IPv4 or IPv6 parser. -/
def ipKind : List Char → Option Bool
  | [] => none
  | c :: rest =>
    if c = '.' then some false
    else if c = ':' then some true
    else ipKind rest

/-- Go `net.ParseIP`. -/
def parseIPgo (s : String) : Option (List Nat) :=
  match ipKind s.data with
  | some false => parseIPv4go s.data
  | some true => parseIPv6go s.data
  | none => none

/-- `net.IPv6loopback` (`::1`). -/
def ipv6loopbackBytes : List Nat :=
  [0, 0, 0, 0, 0, 0, 0, 0, 0, 0, 0, 0, 0, 0, 0, 1]

/-- `net.IP.To4` succeeds: the 16-byte value carries the v4-mapped prefix. -/
def isV4mappedPrefix (ip : List Nat) : Bool :=
  ip.take 12 = [0, 0, 0, 0, 0, 0, 0, 0, 0, 0, 255, 255]

/-- `net.IP.IsLoopback`. -/
def goIsLoopback (ip : List Nat) : Bool :=
  if isV4mappedPrefix ip then ip.get? 12 = some 127
  else ip = ipv6loopbackBytes

/-- `ValidateDNSServer` from pkg/errors. -/
def ValidateDNSServer (server : String) : Option DigError :=
  if server = "" then some (NewInputError "DNS server cannot be empty" none)
  else
    match parseIPgo server with
    | none =>
      some (NewInputError ("\x27" ++ server ++ "\x27 is not a valid IP address") none)
    | some ip =>
      if goIsLoopback ip && !(ip = v4mapped 127 0 0 1) && !(ip = ipv6loopbackBytes) then
        some (NewInputError
          "loopback addresses other than 127.0.0.1 or ::1 are not recommended for DNS" none)
      else none

/-! ### Model of `net.SplitHostPort` (Go standard library) -/

/-- `net.AddrError.Error()`: `"address <addr>: <err>"`. -/
def addrErrText (s why : String) : String :=
  if s = "" then why else "address " ++ s ++ ": " ++ why

/-- Go `net.SplitHostPort`.  Index arithmetic is in characters, which
matches Go's byte indexing on ASCII input (the only input shape the
program hands to it that matters for behaviour). -/
def splitHostPort (hostport : String) : Except String (String × String) :=
  let l := hostport.data
  match lastIdxOf ':' l with
  | none => .error (addrErrText hostport "missing port in address")
  | some i =>
    if l.head? = some '[' then
      match firstIdxOf ']' l with
      | none => .error (addrErrText hostport "missing \x27\x5d\x27 in address")
      | some e =>
        if e + 1 = l.length then .error (addrErrText hostport "missing port in address")
        else if e + 1 = i then
          if (firstIdxOf '[' (l.drop 1)).isSome then
            .error (addrErrText hostport "unexpected \x27[\x27 in address")
          else if (firstIdxOf ']' (l.drop (e + 1))).isSome then
            .error (addrErrText hostport "unexpected \x27\x5d\x27 in address")
          else .ok (String.mk ((l.take e).drop 1), String.mk (l.drop (i + 1)))
        else
          if l.get? (e + 1) = some ':' then
            .error (addrErrText hostport "too many colons in address")
          else .error (addrErrText hostport "missing port in address")
    else
      if (firstIdxOf ':' (l.take i)).isSome then
        .error (addrErrText hostport "too many colons in address")
      else if (firstIdxOf '[' l).isSome then
        .error (addrErrText hostport "unexpected \x27[\x27 in address")
      else if (firstIdxOf ']' l).isSome then
        .error (addrErrText hostport "unexpected \x27\x5d\x27 in address")
      else .ok (String.mk (l.take i), String.mk (l.drop (i + 1)))

example : parseIPgo "8.8.8.8" = some (v4mapped 8 8 8 8) := by decide
example : parseIPgo "::1" = some ipv6loopbackBytes := by decide
example : parseIPgo "2001:db8::1" =
    some [0x20, 0x01, 0x0d, 0xb8, 0, 0, 0, 0, 0, 0, 0, 0, 0, 0, 0, 1] := by decide
example : parseIPgo "[::1]" = none := by decide
example : parseIPgo "1.1.1.1:53" = none := by decide
example : parseIPgo "256.1.1.1" = none := by decide
example : parseIPgo "01.1.1.1" = none := by decide
example : parseIPgo "::ffff:192.0.2.1" = some (v4mapped 192 0 2 1) := by decide
example : ValidateDNSServer "127.0.0.1" = none := by decide
example : (ValidateDNSServer "127.0.0.2").isSome = true := by decide
example : (ValidateDNSServer "not-an-ip").isSome = true := by decide
example : splitHostPort "1.1.1.1:53" = .ok ("1.1.1.1", "53") := rfl
example : splitHostPort "[2001:db8::1]:53" = .ok ("2001:db8::1", "53") := rfl
example : splitHostPort "[::1]" = .error "address [::1]: missing port in address" := rfl

/-! ### The resolver client (`pkg/dns/client.go`) -/

/-- One resource record of the answer section, as the extraction loop sees
it through the miekg/dns type assertions.  `A`/`AAAA` carry the rendered IP
literal (`.String()` of the address), `MX` its preference and exchange
host, `CNAME` its target, `TXT` its character-string segments.  `Other`
stands for every record type the loop's assertions reject. -/
inductive RR where
  | A (ip : String)
  | AAAA (ip : String)
  | MX (preference : Nat) (mx : String)
  | CNAME (target : String)
  | TXT (txt : List String)
  | Other
deriving DecidableEq, Repr

/-- The part of a `dns.Msg` response that `Query` inspects: the response
code and the answer section.  Response codes are the miekg/dns numerals:
success 0, format error 1, server failure 2, name error 3, not
implemented 4, refused 5. -/
structure Msg where
  rcode : Nat
  answer : List RR
deriving DecidableEq, Repr

/-- Outcomes of the external effects of one `Query` call: the resolver
configuration read by `getSystemDNS` (`none` when the file is unreadable,
otherwise the server list), and the result of the one
`dnsClient.Exchange` call (its error text, its response, its elapsed
time). -/
structure Env where
  resolvConf : Option (List String)
  exchErr : Option String
  exchResponse : Option Msg
  exchElapsed : Nat
deriving DecidableEq, Repr

/-- `Result` from pkg/dns. `QueryTime` is in the same abstract time unit as
`Env.exchElapsed`. -/
structure Result where
  domain : String
  recordType : String
  records : List String
  server : String
  queryTime : Nat
  error : Option DigError
deriving DecidableEq, Repr

/-- `getSystemDNS` (with `getWindowsDNS`/`getUnixDNS`): both platform paths
read a resolver configuration and return its first server with `":53"`
appended, or fail when the configuration is unreadable or lists no
servers. -/
def getSystemDNS (conf : Option (List String)) : Except String String :=
  match conf with
  | none => .error "could not read resolv.conf"
  | some [] => .error "no DNS servers found in resolv.conf"
  | some (srv :: _) => .ok (srv ++ ":53")

/-- Server-address preparation in `Query` (client.go lines 69-130): system
default with silent fallback for an empty server, and the three address
shapes (bracketed IPv6 with port / bare literal without port / host:port)
for a non-empty one.  Returns the final `host:port` string or the
validation error. -/
def resolveServer (conf : Option (List String)) (server : String) : Except DigError String :=
  if server = "" then
    match getSystemDNS conf with
    | .error _ => .ok "8.8.8.8:53"
    | .ok systemDNS => .ok systemDNS
  else if goHasPrefix server "[" && goContains server "\x5d:" then
    -- IPv6 with port in brackets format [::1]:53
    match splitHostPort server with
    | .error e => .error (NewInputError ("invalid DNS server format: " ++ server) (some e))
    | .ok (host, port) =>
      match ValidateDNSServer host with
      | some e => .error e
      | none =>
        match ValidateDNSPort port with
        | some e => .error e
        | none => .ok server
  else if !(goContains server ":") || (parseIPgo server).isSome then
    -- IPv4 address or IPv6 address without port
    match ValidateDNSServer server with
    | some e => .error e
    | none =>
      if goContains server ":" && (parseIPgo server).isSome then
        .ok ("[" ++ server ++ "\x5d:53")
      else .ok (server ++ ":53")
  else
    -- IPv4 with port
    match splitHostPort server with
    | .error e => .error (NewInputError ("invalid DNS server format: " ++ server) (some e))
    | .ok (host, port) =>
      match ValidateDNSServer host with
      | some e => .error e
      | none =>
        match ValidateDNSPort port with
        | some e => .error e
        | none => .ok server

/-- The query-type switch of `Query` (client.go lines 138-156): the wire
query code for the upper-cased record type, `none` for the default branch. -/
def selectQueryType (recordTypeUpper : String) : Option Nat :=
  if recordTypeUpper = "A" then some 1
  else if recordTypeUpper = "AAAA" then some 28
  else if recordTypeUpper = "MX" then some 15
  else if recordTypeUpper = "CNAME" then some 5
  else if recordTypeUpper = "TXT" then some 16
  else none

/-- The body of `Query`'s record-extraction loop for one answer entry
(client.go lines 203-227): the switch over the requested type with a type
assertion on the entry, appending the rendered value on a match. -/
def extractOne (recordTypeUpper : String) (records : List String) (answer : RR) : List String :=
  if recordTypeUpper = "A" then
    match answer with
    | RR.A ip => records ++ [ip]
    | _ => records
  else if recordTypeUpper = "AAAA" then
    match answer with
    | RR.AAAA ip => records ++ [ip]
    | _ => records
  else if recordTypeUpper = "MX" then
    match answer with
    | RR.MX preference mx => records ++ [toString preference ++ " " ++ mx]
    | _ => records
  else if recordTypeUpper = "CNAME" then
    match answer with
    | RR.CNAME target => records ++ [target]
    | _ => records
  else if recordTypeUpper = "TXT" then
    match answer with
    | RR.TXT txt => records ++ [goJoin " " txt]
    | _ => records
  else records

/-- `Query`'s record-extraction loop over the whole answer section. -/
def extractRecords (recordTypeUpper : String) (answers : List RR) : List String :=
  answers.foldl (extractOne recordTypeUpper) []

/-- `Query` from pkg/dns/client.go.  The Go function returns
`(*Result, error)` where on every return path the error value is the
same value stored in `Result.Error`; the model therefore returns the
`Result` alone.  Each early return is rendered as the record literal
holding the field values at that return. -/
def Query (env : Env) (domain recordType server : String) : Result :=
  match ValidateDomain domain with
  | some e =>
    { domain := domain, recordType := recordType, server := server, records := [],
      queryTime := 0, error := some e }
  | none =>
  match ValidateRecordType recordType with
  | some e =>
    { domain := domain, recordType := recordType, server := server, records := [],
      queryTime := 0, error := some e }
  | none =>
  match resolveServer env.resolvConf server with
  | .error e =>
    { domain := domain, recordType := recordType, server := server, records := [],
      queryTime := 0, error := some e }
  | .ok finalServer =>
  match selectQueryType (goToUpper recordType) with
  | none =>
    { domain := domain, recordType := recordType, server := finalServer, records := [],
      queryTime := 0,
      error := some (NewInputError ("record type \x27" ++ recordType ++ "\x27 not supported") none) }
  | some _queryType =>
  match env.exchErr with
  | some errText =>
    { domain := domain, recordType := recordType, server := finalServer, records := [],
      queryTime := env.exchElapsed,
      error := some (classifyNetworkErrorNonNil errText finalServer) }
  | none =>
  match env.exchResponse with
  | none =>
    { domain := domain, recordType := recordType, server := finalServer, records := [],
      queryTime := env.exchElapsed,
      error := some (NewNetworkError "no response received from DNS server" none finalServer) }
  | some response =>
  if response.rcode ≠ 0 then
    { domain := domain, recordType := recordType, server := finalServer, records := [],
      queryTime := env.exchElapsed,
      error := some (
        if response.rcode = 3 then
          NewDNSError ("domain \x27" ++ domain ++ "\x27 not found (NXDOMAIN)") none domain finalServer
        else if response.rcode = 2 then
          NewDNSError "DNS server experienced an internal failure" none domain finalServer
        else if response.rcode = 5 then
          NewDNSError "DNS server refused the query" none domain finalServer
        else if response.rcode = 4 then
          NewDNSError "DNS server does not support this query type" none domain finalServer
        else if response.rcode = 1 then
          NewDNSError "DNS query format error" none domain finalServer
        else
          NewDNSError ("DNS query failed with response code " ++ toString response.rcode)
            none domain finalServer) }
  else if (extractRecords (goToUpper recordType) response.answer).length = 0 then
    { domain := domain, recordType := recordType, server := finalServer,
      records := extractRecords (goToUpper recordType) response.answer,
      queryTime := env.exchElapsed,
      error := some (NewDNSError ("no " ++ goToUpper recordType ++
        " records found for domain \x27" ++ domain ++ "\x27") none domain finalServer) }
  else
    { domain := domain, recordType := recordType, server := finalServer,
      records := extractRecords (goToUpper recordType) response.answer,
      queryTime := env.exchElapsed, error := none }

example : resolveServer none "8.8.8.8" = .ok "8.8.8.8:53" := rfl
example : resolveServer none "1.1.1.1:53" = .ok "1.1.1.1:53" := rfl
example : resolveServer none "::1" = .ok "[::1]:53" := rfl
example : resolveServer none "[2001:db8::1]:53" = .ok "[2001:db8::1]:53" := rfl
example : resolveServer (some ["9.9.9.9"]) "" = .ok "9.9.9.9:53" := rfl
example : resolveServer (some []) "" = .ok "8.8.8.8:53" := rfl
example : ValidateDomain "example.com" = none := by decide
example : (ValidateDomain "").isSome = true := by decide
example : (ValidateDomain "a..b").isSome = true := by decide
example : (ValidateDomain "foo.123").isSome = true := by decide
example : ValidateDomain "_dmarc.example.com" = none := by decide
example :
    (Query ⟨none, none, some ⟨0, [RR.A "192.0.2.1", RR.Other, RR.A "192.0.2.2"]⟩, 7⟩
      "example.com" "a" "8.8.8.8").records = ["192.0.2.1", "192.0.2.2"] := by decide
example :
    (Query ⟨none, none, some ⟨3, []⟩, 7⟩ "example.com" "A" "8.8.8.8").error =
      some (NewDNSError "domain \x27example.com\x27 not found (NXDOMAIN)" none
        "example.com" "8.8.8.8:53") := by decide

/-! ### Spec-side definitions

These definitions follow the wording of the specification (spec.md) rather
than the code; the claim theorems below relate them to the embedded code. -/

/-- Modelled from the spec's extraction rules (§4.2 step 7): the value one
answer entry contributes when its type matches the requested type — A/AAAA
give the IP literal, MX gives preference and exchange host space-joined,
CNAME the target name, TXT its segments joined with single spaces; entries
of other types contribute nothing. -/
def specExtract (recordTypeUpper : String) : RR → Option String
  | RR.A ip => if recordTypeUpper = "A" then some ip else none
  | RR.AAAA ip => if recordTypeUpper = "AAAA" then some ip else none
  | RR.MX preference mx =>
    if recordTypeUpper = "MX" then some (toString preference ++ " " ++ mx) else none
  | RR.CNAME target => if recordTypeUpper = "CNAME" then some target else none
  | RR.TXT txt => if recordTypeUpper = "TXT" then some (goJoin " " txt) else none
  | RR.Other => none

/-- Modelled from the spec's network-failure classification (§4.1): the
message selected by case-insensitive substring matching on the error text. -/
def specNetworkMessage (errText : String) : String :=
  if goContains (goToLower errText) "timeout" || goContains (goToLower errText) "deadline exceeded" then
    "DNS server timeout - server may be unreachable or overloaded"
  else if goContains (goToLower errText) "connection refused" then
    "DNS server refused connection - server may be down or not accepting queries"
  else if goContains (goToLower errText) "no such host" then
    "DNS server hostname could not be resolved"
  else if goContains (goToLower errText) "network unreachable" then
    "Network unreachable - check your internet connection"
  else if goContains (goToLower errText) "permission denied" then
    "Permission denied - may need elevated privileges"
  else
    "Network error occurred while contacting DNS server"

/-- The spec's "no two consecutive dots" rule, read directly: no adjacent
pair of characters is a pair of dots. -/
def noConsecDots : List Char → Bool
  | c1 :: c2 :: rest => !(c1 = '.' && c2 = '.') && noConsecDots (c2 :: rest)
  | _ => true

/-- The spec's per-label requirements (§4.1): labels are 1–63 characters,
no label starts or ends with a hyphen, no label ends with an underscore. -/
def specLabelOk (lab : List Char) : Bool :=
  !lab.isEmpty && golenL lab ≤ 63 &&
  !(lab.head? = some '-') && !(lab.getLast? = some '-') && !(lab.getLast? = some '_')

/-- Modelled from the spec's domain rules (§4.1, claim C3): non-empty, total
length at most 253, every character an ASCII letter, digit, hyphen,
underscore or dot, no two consecutive dots, no leading/trailing dot or
hyphen, all labels well-formed, and the last label not entirely numeric. -/
def specDomainOk (d : String) : Bool :=
  let l := d.data
  let labels := splitOnDot l
  !l.isEmpty && golenL l ≤ 253 && l.all allowedDomainChar &&
  noConsecDots l &&
  !(l.head? = some '.') && !(l.getLast? = some '.') &&
  !(l.head? = some '-') && !(l.getLast? = some '-') &&
  labels.all specLabelOk &&
  !(allNumericL (labels.getLast?.getD []))

example : specDomainOk "example.com" = true := by decide
example : specDomainOk "" = false := by decide
example : specDomainOk "a..b" = false := by decide
example : specDomainOk "foo.123" = false := by decide
example : specDomainOk "_dmarc.example.com" = true := by decide

/-! ### Helper lemmas -/

/-- One step of the extraction loop appends exactly the spec-side value of
the answer entry. -/
theorem extractOne_eq (rtU : String) (acc : List String) (a : RR) :
    extractOne rtU acc a = acc ++ (specExtract rtU a).toList := by
  cases a <;> simp only [extractOne, specExtract] <;>
    (repeat' split) <;> simp_all

/-- The extraction fold is the spec-side `filterMap`. -/
theorem extract_foldl (rtU : String) (answers : List RR) (acc : List String) :
    answers.foldl (extractOne rtU) acc = acc ++ answers.filterMap (specExtract rtU) := by
  induction answers generalizing acc with
  | nil => simp
  | cons a rest ih =>
    rw [List.foldl_cons, ih, extractOne_eq, List.filterMap_cons]
    cases h : specExtract rtU a <;> simp [h]

theorem extractRecords_eq_filterMap (rtU : String) (answers : List RR) :
    extractRecords rtU answers = answers.filterMap (specExtract rtU) := by
  simp [extractRecords, extract_foldl]

/-- A record type accepted by `ValidateRecordType` always selects a wire
query code. -/
theorem selectQueryType_of_validType {rt : String} (h : ValidateRecordType rt = none) :
    ∃ q, selectQueryType (goToUpper rt) = some q := by
  by_cases hA : goToUpper rt = "A"
  · exact ⟨1, by rw [hA]; decide⟩
  by_cases hB : goToUpper rt = "AAAA"
  · exact ⟨28, by rw [hB]; decide⟩
  by_cases hC : goToUpper rt = "MX"
  · exact ⟨15, by rw [hC]; decide⟩
  by_cases hD : goToUpper rt = "CNAME"
  · exact ⟨5, by rw [hD]; decide⟩
  by_cases hE : goToUpper rt = "TXT"
  · exact ⟨16, by rw [hE]; decide⟩
  exfalso
  by_cases h0 : rt = "" <;>
    simp [ValidateRecordType, h0, hA, hB, hC, hD, hE] at h

/-! ### Claim theorems -/

/-- C1: for every invocation of `Query` and every possible outcome, the
returned `Result` has a non-null error exactly when `Records` is empty;
equivalently, the returned error (which `Query` always stores in
`Result.Error`) is nil exactly when `Records` is non-empty. -/
theorem Query_error_none_iff_records_nonempty (env : Env) (domain recordType server : String) :
    ((Query env domain recordType server).error = none ↔
      (Query env domain recordType server).records ≠ []) := by
  unfold Query
  repeat' split
  all_goals simp_all [List.length_eq_zero]

/-- C9: whenever `ValidateRecordType` accepts a record type, the query-type
switch in `Query` (on the upper-cased type) never takes its default branch:
the internal-consistency Input error at that point is unreachable. -/
theorem selectQueryType_total_on_valid (rt : String) (h : ValidateRecordType rt = none) :
    selectQueryType (goToUpper rt) ≠ none := by
  obtain ⟨q, hq⟩ := selectQueryType_of_validType h
  simp [hq]

/-- Witness for C9 at the concrete record type "cname". -/
theorem selectQueryType_total_on_valid_witness :
    ValidateRecordType "cname" = none ∧ selectQueryType (goToUpper "cname") ≠ none :=
  ⟨by decide, selectQueryType_total_on_valid "cname" (by decide)⟩

/-- C8: `ClassifyNetworkError` maps nil to nil, and every non-nil error to a
Network-kind error carrying the original error as cause and the server as
context, with the message selected by case-insensitive substring matching
of the error text (timeout/deadline, connection refused, no such host,
network unreachable, permission denied, generic fallback — in that order). -/
theorem ClassifyNetworkError_spec (err : Option String) (server : String) :
    ClassifyNetworkError err server =
      err.map (fun errText =>
        { type := ErrorType.Network, message := specNetworkMessage errText,
          cause := some errText, domain := "", server := server }) := by
  cases err with
  | none => rfl
  | some s =>
    show some (classifyNetworkErrorNonNil s server) = some _
    unfold classifyNetworkErrorNonNil specNetworkMessage NewNetworkError
    repeat' split
    all_goals simp_all

/-- C4: server-address normalization in `Query`: `"8.8.8.8"` gains the
default port, `"1.1.1.1:53"` is unchanged, bare IPv6 `"::1"` is bracketed
and gains the port, `"[2001:db8::1]:53"` is unchanged, and the empty server
resolves to the discovered system default or the `"8.8.8.8:53"` fallback —
never an empty string and never an error. -/
theorem resolveServer_normalization (conf : Option (List String)) :
    resolveServer conf "8.8.8.8" = .ok "8.8.8.8:53" ∧
    resolveServer conf "1.1.1.1:53" = .ok "1.1.1.1:53" ∧
    resolveServer conf "::1" = .ok "[::1]:53" ∧
    resolveServer conf "[2001:db8::1]:53" = .ok "[2001:db8::1]:53" ∧
    ∃ fs, resolveServer conf "" = .ok fs ∧ fs ≠ "" ∧
      (getSystemDNS conf = .ok fs ∨
        ((∃ m, getSystemDNS conf = .error m) ∧ fs = "8.8.8.8:53")) := by
  refine ⟨rfl, rfl, rfl, rfl, ?_⟩
  match conf with
  | none => exact ⟨"8.8.8.8:53", rfl, by decide, Or.inr ⟨⟨_, rfl⟩, rfl⟩⟩
  | some [] => exact ⟨"8.8.8.8:53", rfl, by decide, Or.inr ⟨⟨_, rfl⟩, rfl⟩⟩
  | some (srv :: rest) =>
    refine ⟨srv ++ ":53", rfl, ?_, Or.inl rfl⟩
    intro heq
    have hlen : (srv ++ ":53").length = 0 := by rw [heq]; rfl
    rw [String.length_append] at hlen
    have h3 : (":53" : String).length = 3 := rfl
    omega

/-- C7: on the success path (valid inputs, resolved server, exchange with a
success response code), `Query`'s records are exactly the spec-side
per-answer extraction: one entry per answer record whose type matches the
requested type, rendered per type, in server-returned order. -/
theorem Query_records_extraction_spec (env : Env) (d t s fs : String) (msg : Msg)
    (hdom : ValidateDomain d = none) (htype : ValidateRecordType t = none)
    (hres : resolveServer env.resolvConf s = .ok fs)
    (herr : env.exchErr = none) (hresp : env.exchResponse = some msg)
    (hrc : msg.rcode = 0) :
    (Query env d t s).records = msg.answer.filterMap (specExtract (goToUpper t)) := by
  obtain ⟨q, hq⟩ := selectQueryType_of_validType htype
  unfold Query
  rw [hdom, htype, hres, hq, herr, hresp]
  dsimp only
  rw [if_neg (by simp [hrc])]
  split <;> simp [extractRecords_eq_filterMap]

/-- Witness for C7: an A query whose answer section mixes A records with
records of other types; exactly the A values survive, in order. -/
theorem Query_records_extraction_spec_witness :
    (Query ⟨none, none, some ⟨0, [RR.A "192.0.2.1", RR.MX 10 "m.example.com.",
        RR.A "192.0.2.2", RR.TXT ["part1", "part2"]]⟩, 7⟩
      "example.com" "A" "8.8.8.8").records = ["192.0.2.1", "192.0.2.2"] := by
  have h := Query_records_extraction_spec
    ⟨none, none, some ⟨0, [RR.A "192.0.2.1", RR.MX 10 "m.example.com.",
        RR.A "192.0.2.2", RR.TXT ["part1", "part2"]]⟩, 7⟩
    "example.com" "A" "8.8.8.8" "8.8.8.8:53"
    ⟨0, [RR.A "192.0.2.1", RR.MX 10 "m.example.com.",
        RR.A "192.0.2.2", RR.TXT ["part1", "part2"]]⟩
    (by decide) (by decide) rfl rfl rfl rfl
  rw [h]; decide

/-- C5: a successful exchange with a success response code whose extraction
yields zero entries produces a DNS-kind error with the
"no TYPE records found for domain" message (type upper-cased), carrying
domain and server context — never an empty-records success. -/
theorem Query_empty_extraction_dns_error (env : Env) (d t s fs : String) (msg : Msg)
    (hdom : ValidateDomain d = none) (htype : ValidateRecordType t = none)
    (hres : resolveServer env.resolvConf s = .ok fs)
    (herr : env.exchErr = none) (hresp : env.exchResponse = some msg)
    (hrc : msg.rcode = 0)
    (hempty : extractRecords (goToUpper t) msg.answer = []) :
    (Query env d t s).error =
      some (NewDNSError ("no " ++ goToUpper t ++ " records found for domain \x27" ++ d ++ "\x27")
        none d fs) ∧
    (Query env d t s).records = [] := by
  obtain ⟨q, hq⟩ := selectQueryType_of_validType htype
  unfold Query
  rw [hdom, htype, hres, hq, herr, hresp]
  simp [hrc, hempty]

/-- Witness for C5: a success response whose only answer entry is an MX
record while A was requested. -/
theorem Query_empty_extraction_dns_error_witness :
    (Query ⟨none, none, some ⟨0, [RR.MX 10 "m.example.com."]⟩, 3⟩
        "example.com" "A" "8.8.8.8").error =
      some (NewDNSError ("no " ++ goToUpper "A" ++ " records found for domain \x27" ++
        "example.com" ++ "\x27") none "example.com" "8.8.8.8:53") ∧
    (Query ⟨none, none, some ⟨0, [RR.MX 10 "m.example.com."]⟩, 3⟩
        "example.com" "A" "8.8.8.8").records = [] :=
  Query_empty_extraction_dns_error
    ⟨none, none, some ⟨0, [RR.MX 10 "m.example.com."]⟩, 3⟩
    "example.com" "A" "8.8.8.8" "8.8.8.8:53" ⟨0, [RR.MX 10 "m.example.com."]⟩
    (by decide) (by decide) rfl rfl rfl rfl (by decide)

/-- C6: a non-success response code produces a DNS-kind error carrying
domain and server, with the message selected by the code: 3 (name error)
NXDOMAIN, 2 (server failure) internal failure, 5 (refused), 4 (not
implemented), 1 (format error), and the generic numeric message otherwise. -/
theorem Query_rcode_error_messages (env : Env) (d t s fs : String) (msg : Msg)
    (hdom : ValidateDomain d = none) (htype : ValidateRecordType t = none)
    (hres : resolveServer env.resolvConf s = .ok fs)
    (herr : env.exchErr = none) (hresp : env.exchResponse = some msg)
    (hrc : msg.rcode ≠ 0) :
    (Query env d t s).records = [] ∧
    (Query env d t s).error = some (NewDNSError
      (if msg.rcode = 3 then "domain \x27" ++ d ++ "\x27 not found (NXDOMAIN)"
       else if msg.rcode = 2 then "DNS server experienced an internal failure"
       else if msg.rcode = 5 then "DNS server refused the query"
       else if msg.rcode = 4 then "DNS server does not support this query type"
       else if msg.rcode = 1 then "DNS query format error"
       else "DNS query failed with response code " ++ toString msg.rcode)
      none d fs) := by
  obtain ⟨q, hq⟩ := selectQueryType_of_validType htype
  unfold Query
  rw [hdom, htype, hres, hq, herr, hresp]
  simp only [hrc, if_pos, ne_eq, not_false_iff, ite_true, if_neg]
  refine ⟨by simp [hrc], ?_⟩
  repeat' split
  all_goals simp_all

/-- Witness for C6: an NXDOMAIN (code 3) response. -/
theorem Query_rcode_error_messages_witness :
    (Query ⟨none, none, some ⟨3, []⟩, 4⟩ "example.com" "A" "8.8.8.8").records = [] ∧
    (Query ⟨none, none, some ⟨3, []⟩, 4⟩ "example.com" "A" "8.8.8.8").error =
      some (NewDNSError
        (if (3 : Nat) = 3 then "domain \x27" ++ "example.com" ++ "\x27 not found (NXDOMAIN)"
         else if (3 : Nat) = 2 then "DNS server experienced an internal failure"
         else if (3 : Nat) = 5 then "DNS server refused the query"
         else if (3 : Nat) = 4 then "DNS server does not support this query type"
         else if (3 : Nat) = 1 then "DNS query format error"
         else "DNS query failed with response code " ++ toString (3 : Nat))
        none "example.com" "8.8.8.8:53") :=
  Query_rcode_error_messages ⟨none, none, some ⟨3, []⟩, 4⟩
    "example.com" "A" "8.8.8.8" "8.8.8.8:53" ⟨3, []⟩
    (by decide) (by decide) rfl rfl rfl (by decide)

/-- C2 counterexample: on a domain-validation failure the server field is
NOT the fully normalized `host:port` string.  With the invalid (empty)
domain, `Query` returns `Result.server = "8.8.8.8"` — the caller's raw
argument — although normalization of `"8.8.8.8"` yields `"8.8.8.8:53"`,
and the result is on the domain-validation-failure path (an Input error). -/
theorem Query_server_normalized_cex :
    (Query ⟨none, none, none, 0⟩ "" "A" "8.8.8.8").server = "8.8.8.8" ∧
    resolveServer none "8.8.8.8" = .ok "8.8.8.8:53" ∧
    (Query ⟨none, none, none, 0⟩ "" "A" "8.8.8.8").server ≠ "8.8.8.8:53" ∧
    (Query ⟨none, none, none, 0⟩ "" "A" "8.8.8.8").error =
      some (NewInputError "domain name cannot be empty" none) := by
  refine ⟨by decide, rfl, by decide, by decide⟩

/-- C2 as amended: `Result.server` holds the fully normalized `host:port`
string on every path that reaches past server resolution (the
internal-consistency default branch, exchange failure, nil response, DNS
failure, empty extraction and success), while on the earlier failing paths
(domain validation, record-type validation, server resolution) it retains
the caller's original server argument unchanged. -/
theorem Query_server_field_paths (env : Env) (d t s : String) :
    (∀ fs, ValidateDomain d = none → ValidateRecordType t = none →
      resolveServer env.resolvConf s = .ok fs → (Query env d t s).server = fs) ∧
    (ValidateDomain d ≠ none → (Query env d t s).server = s) ∧
    (ValidateDomain d = none → ValidateRecordType t ≠ none →
      (Query env d t s).server = s) ∧
    (ValidateDomain d = none → ValidateRecordType t = none →
      (∀ e, resolveServer env.resolvConf s = .error e → (Query env d t s).server = s)) := by
  refine ⟨?_, ?_, ?_, ?_⟩
  · intro fs hdom htype hres
    unfold Query
    rw [hdom, htype, hres]
    dsimp only
    repeat' split
    all_goals rfl
  · intro hdom
    unfold Query
    match h : ValidateDomain d with
    | some e => rfl
    | none => exact absurd h hdom
  · intro hdom htype
    unfold Query
    rw [hdom]
    match h : ValidateRecordType t with
    | some e => rfl
    | none => exact absurd h htype
  · intro hdom htype e hres
    unfold Query
    rw [hdom, htype, hres]

/-- Witness for the amended C2 on the exchange-failure path: a timeout with
the normalized server recorded. -/
theorem Query_server_field_paths_witness :
    (Query ⟨none, some "i/o timeout", none, 9⟩ "example.com" "A" "8.8.8.8").server =
      "8.8.8.8:53" :=
  (Query_server_field_paths ⟨none, some "i/o timeout", none, 9⟩
    "example.com" "A" "8.8.8.8").1 "8.8.8.8:53" (by decide) (by decide) rfl

/-! ### Bridging lemmas for the domain-validation claim -/

theorem findInvalidChar_none (l : List Char) (i : Nat) :
    (findInvalidChar l i = none ↔ l.all allowedDomainChar = true) := by
  induction l generalizing i with
  | nil => simp [findInvalidChar]
  | cons c rest ih =>
    simp only [findInvalidChar, List.all_cons]
    by_cases h : allowedDomainChar c = true
    · simp [h, ih]
    · simp only [Bool.not_eq_true] at h
      simp [h]

theorem findInvalidChar_some {l : List Char} {i : Nat} {x : Char × Nat}
    (h : findInvalidChar l i = some x) : l.all allowedDomainChar = false := by
  cases hall : l.all allowedDomainChar with
  | false => rfl
  | true => rw [(findInvalidChar_none l i).2 hall] at h; cases h

theorem goHasPrefixL_singleton (l : List Char) (c : Char) :
    goHasPrefixL l [c] = decide (l.head? = some c) := by
  cases l with
  | nil => simp [goHasPrefixL]
  | cons x xs => simp [goHasPrefixL]

theorem goHasSuffixL_singleton (l : List Char) (c : Char) :
    goHasSuffixL l [c] = decide (l.getLast? = some c) := by
  unfold goHasSuffixL
  rw [show ([c] : List Char).reverse = [c] from rfl, goHasPrefixL_singleton]
  simp [List.head?_reverse]

theorem goContainsL_dotdot (l : List Char) :
    goContainsL ['.', '.'] l = !noConsecDots l := by
  induction l with
  | nil => rfl
  | cons c cs ih =>
    cases cs with
    | nil => simp [goContainsL, goHasPrefixL, noConsecDots]
    | cons c2 cs2 =>
      simp only [goContainsL, goHasPrefixL, noConsecDots] at ih ⊢
      rw [ih]
      cases hc : decide (c = '.') <;> cases hc2 : decide (c2 = '.') <;> simp_all

theorem splitOnDot_ne_nil (l : List Char) : splitOnDot l ≠ [] := by
  cases l with
  | nil => simp [splitOnDot]
  | cons c rest =>
    simp only [splitOnDot]
    split <;> split <;> simp

theorem splitOnDot_singleton : ∀ {l lab : List Char}, splitOnDot l = [lab] → l = lab := by
  intro l
  induction l with
  | nil => intro lab h; simp [splitOnDot] at h; simp [h]
  | cons c rest ih =>
    intro lab h
    simp only [splitOnDot] at h
    rcases hs : splitOnDot rest with _ | ⟨h', t⟩
    · exact absurd hs (splitOnDot_ne_nil rest)
    · rw [hs] at h
      by_cases hc : c = '.'
      · simp [hc] at h
      · simp only [if_neg hc] at h
        cases h
        have ht : splitOnDot rest = [h'] := by rw [hs]
        rw [ih ht]

theorem getLast?_mem {α : Type} {l : List α} {x : α} (h : l.getLast? = some x) : x ∈ l := by
  obtain ⟨hne, heq⟩ := List.mem_getLast?_eq_getLast (l := l) (x := x) h
  rw [heq]
  exact List.getLast_mem hne

/-- The last label of a domain ends with the domain's last character, as
long as the domain is non-empty and does not end with a dot. -/
theorem lastLabel_getLast : ∀ l : List Char, l ≠ [] → l.getLast? ≠ some '.' →
    ((splitOnDot l).getLast?.getD []).getLast? = l.getLast? := by
  intro l
  induction l with
  | nil => intro h; exact absurd rfl h
  | cons c rest ih =>
    intro _ hdot
    cases rest with
    | nil =>
      have hc : ¬(c = '.') := by
        intro hc; exact hdot (by simp [hc])
      simp [splitOnDot, if_neg hc]
    | cons c2 rest2 =>
      have hlast : (c :: c2 :: rest2).getLast? = (c2 :: rest2).getLast? :=
        List.getLast?_cons_cons ..
      rw [hlast] at hdot ⊢
      have ihr := ih (by simp) hdot
      have hunfold : splitOnDot (c :: c2 :: rest2) =
          match splitOnDot (c2 :: rest2) with
          | [] => if c = '.' then [[], []] else [[c]]
          | h :: t => if c = '.' then [] :: h :: t else (c :: h) :: t := rfl
      rcases hs : splitOnDot (c2 :: rest2) with _ | ⟨h', t⟩
      · exact absurd hs (splitOnDot_ne_nil _)
      · rw [hs] at ihr hunfold
        by_cases hc : c = '.'
        · rw [hunfold]
          dsimp only
          rw [if_pos hc]
          rw [show (([] : List Char) :: h' :: t).getLast? = (h' :: t).getLast? from
            List.getLast?_cons_cons ..]
          exact ihr
        · rw [hunfold]
          dsimp only
          rw [if_neg hc]
          cases t with
          | nil =>
            have hr : c2 :: rest2 = h' := splitOnDot_singleton hs
            show (c :: h').getLast? = (c2 :: rest2).getLast?
            rw [← hr]
            exact List.getLast?_cons_cons ..
          | cons t1 ts =>
            rw [show ((c :: h') :: t1 :: ts).getLast? = (t1 :: ts).getLast? from
              List.getLast?_cons_cons ..]
            rw [show (h' :: t1 :: ts).getLast? = (t1 :: ts).getLast? from
              List.getLast?_cons_cons ..] at ihr
            exact ihr

theorem isEmpty_false_iff {α : Type} (l : List α) : (l.isEmpty = false) ↔ l ≠ [] := by
  cases l <;> simp

theorem labelErr_none (lab : List Char) :
    labelErr lab = none ↔ specLabelOk lab = true := by
  by_cases h1 : lab = []
  · subst h1; decide
  · by_cases h2 : golenL lab > 63
    · simp [labelErr, specLabelOk, h1, h2, Nat.not_le_of_lt h2]
    · by_cases h3 : lab.head? = some '-'
      all_goals by_cases h4 : lab.getLast? = some '-'
      all_goals by_cases h5 : lab.getLast? = some '_'
      all_goals
        simp [labelErr, specLabelOk, goHasPrefixL_singleton, goHasSuffixL_singleton,
          h1, h2, h3, h4, h5, Nat.not_lt.1 h2, isEmpty_false_iff]

theorem checkLabelsGo_none : ∀ labels : List (List Char),
    (checkLabelsGo labels = none ↔
      (∀ lab ∈ labels, labelErr lab = none) ∧
      (∀ lst, labels.getLast? = some lst → allNumericL lst = false))
  | [] => by simp [checkLabelsGo]
  | [label] => by
    simp only [checkLabelsGo]
    cases h : labelErr label with
    | some e => simp_all
    | none =>
      constructor
      · intro hif
        refine ⟨by simp [h], ?_⟩
        intro lst hlast
        rw [show [label].getLast? = some label from rfl] at hlast
        have hlab : label = lst := Option.some_inj.1 hlast
        subst hlab
        by_cases hn : allNumericL label = true
        · rw [if_pos hn] at hif; cases hif
        · simpa using hn
      · rintro ⟨-, hnum⟩
        rw [if_neg (by simp [hnum label rfl])]
  | l1 :: l2 :: rest => by
    have hrec := checkLabelsGo_none (l2 :: rest)
    simp only [checkLabelsGo]
    cases h : labelErr l1 with
    | some e => simp_all
    | none =>
      rw [hrec]
      constructor
      · rintro ⟨hall, hnum⟩
        refine ⟨?_, ?_⟩
        · intro lab hmem
          rcases List.mem_cons.1 hmem with rfl | hmem
          · exact h
          · exact hall lab hmem
        · intro lst hlast
          rw [List.getLast?_cons_cons] at hlast
          exact hnum lst hlast
      · rintro ⟨hall, hnum⟩
        refine ⟨fun lab hmem => hall lab (List.mem_cons_of_mem _ hmem), ?_⟩
        intro lst hlast
        exact hnum lst (by rw [List.getLast?_cons_cons]; exact hlast)

theorem labelErr_input {lab : List Char} {e : DigError}
    (h : labelErr lab = some e) : e.type = ErrorType.Input := by
  unfold labelErr at h
  repeat' split at h
  all_goals first
    | (injection h with h; subst h; rfl)
    | cases h

theorem checkLabelsGo_input : ∀ (labels : List (List Char)) {e : DigError},
    checkLabelsGo labels = some e → e.type = ErrorType.Input
  | [], e, h => by cases h
  | [label], e, h => by
    cases hl : labelErr label with
    | some e1 =>
      simp only [checkLabelsGo, hl] at h
      rw [← Option.some_inj.1 h]
      exact labelErr_input hl
    | none =>
      by_cases hn : allNumericL label = true
      · simp only [checkLabelsGo, hl, if_pos hn] at h
        rw [← Option.some_inj.1 h]
        rfl
      · simp only [checkLabelsGo, hl, if_neg hn] at h
        cases h
  | l1 :: l2 :: rest, e, h => by
    cases hl : labelErr l1 with
    | some e1 =>
      simp only [checkLabelsGo, hl] at h
      rw [← Option.some_inj.1 h]
      exact labelErr_input hl
    | none =>
      simp only [checkLabelsGo, hl] at h
      exact checkLabelsGo_input (l2 :: rest) h

/-- `ValidateDomain` accepts exactly the domains passing all of its checks,
with each check restated in terms of the character list. -/
theorem ValidateDomain_none_iff (d : String) :
    ValidateDomain d = none ↔
      d ≠ "" ∧ golen d ≤ 253 ∧ d.data.all allowedDomainChar = true ∧
      noConsecDots d.data = true ∧
      d.data.head? ≠ some '.' ∧ d.data.getLast? ≠ some '.' ∧
      d.data.head? ≠ some '-' ∧ d.data.getLast? ≠ some '-' ∧
      d.data.getLast? ≠ some '_' ∧
      (∀ lab ∈ splitOnDot d.data, labelErr lab = none) ∧
      (∀ lst, (splitOnDot d.data).getLast? = some lst → allNumericL lst = false) := by
  unfold ValidateDomain
  by_cases h0 : d = ""
  · simp [h0]
  rw [if_neg h0]
  by_cases h1 : golen d > 253
  · rw [if_pos h1]
    exact iff_of_false (by simp) (by rintro ⟨-, hle, -⟩; omega)
  rw [if_neg h1]
  have h1le : golen d ≤ 253 := Nat.not_lt.1 h1
  cases hchar : findInvalidChar d.data 0 with
  | some x =>
    exact iff_of_false (by simp)
      (by rintro ⟨-, -, hall, -⟩; rw [findInvalidChar_some hchar] at hall; cases hall)
  | none =>
    have hall := (findInvalidChar_none _ _).1 hchar
    have e2 : (goContainsL ['.', '.'] d.data = true) ↔ noConsecDots d.data = false := by
      rw [goContainsL_dotdot]; simp
    by_cases h2 : noConsecDots d.data = true
    case neg =>
      rw [if_pos (e2.2 (Bool.not_eq_true _ ▸ h2))]
      exact iff_of_false (by simp) (by rintro ⟨-, -, -, hcd, -⟩; exact h2 hcd)
    case pos =>
    rw [if_neg (fun hh => by rw [e2.1 hh] at h2; cases h2)]
    have e3 : (goHasPrefixL d.data ['.'] || goHasSuffixL d.data ['.']) = true ↔
        (d.data.head? = some '.' ∨ d.data.getLast? = some '.') := by
      rw [goHasPrefixL_singleton, goHasSuffixL_singleton]; simp
    by_cases h3 : d.data.head? = some '.' ∨ d.data.getLast? = some '.'
    · rw [if_pos (e3.2 h3)]
      exact iff_of_false (by simp) (by rintro ⟨-, -, -, -, ha, hb, -⟩; tauto)
    rw [if_neg (fun hh => h3 (e3.1 hh))]
    push_neg at h3
    obtain ⟨h3a, h3b⟩ := h3
    have e4 : (goHasPrefixL d.data ['-'] || goHasSuffixL d.data ['-']) = true ↔
        (d.data.head? = some '-' ∨ d.data.getLast? = some '-') := by
      rw [goHasPrefixL_singleton, goHasSuffixL_singleton]; simp
    by_cases h4 : d.data.head? = some '-' ∨ d.data.getLast? = some '-'
    · rw [if_pos (e4.2 h4)]
      exact iff_of_false (by simp) (by rintro ⟨-, -, -, -, -, -, ha, hb, -⟩; tauto)
    rw [if_neg (fun hh => h4 (e4.1 hh))]
    push_neg at h4
    obtain ⟨h4a, h4b⟩ := h4
    have e5 : (goHasSuffixL d.data ['_'] = true) ↔ d.data.getLast? = some '_' := by
      rw [goHasSuffixL_singleton]; simp
    by_cases h5 : d.data.getLast? = some '_'
    · rw [if_pos (e5.2 h5)]
      exact iff_of_false (by simp) (by rintro ⟨-, -, -, -, -, -, -, -, hu, -⟩; exact hu h5)
    rw [if_neg (fun hh => h5 (e5.1 hh))]
    rw [checkLabelsGo_none]
    constructor
    · rintro ⟨hlab, hnum⟩
      exact ⟨h0, h1le, hall, h2, h3a, h3b, h4a, h4b, h5, hlab, hnum⟩
    · rintro ⟨-, -, -, -, -, -, -, -, -, hlab, hnum⟩
      exact ⟨hlab, hnum⟩

theorem str_eq_empty_iff (d : String) : d = "" ↔ d.data = [] := by
  constructor
  · intro h; rw [h]
  · intro h; apply String.ext; rw [h]

theorem splitOnDot_getLast_some (l : List Char) :
    ∃ x, (splitOnDot l).getLast? = some x := by
  cases hl : (splitOnDot l).getLast? with
  | some x => exact ⟨x, rfl⟩
  | none =>
    exfalso
    exact splitOnDot_ne_nil l (by rwa [← List.getLast?_eq_none_iff])

/-- The spec-side predicate, restated as a proposition over the character
list. -/
theorem specDomainOk_iff (d : String) :
    specDomainOk d = true ↔
      d ≠ "" ∧ golen d ≤ 253 ∧ d.data.all allowedDomainChar = true ∧
      noConsecDots d.data = true ∧
      d.data.head? ≠ some '.' ∧ d.data.getLast? ≠ some '.' ∧
      d.data.head? ≠ some '-' ∧ d.data.getLast? ≠ some '-' ∧
      (∀ lab ∈ splitOnDot d.data, specLabelOk lab = true) ∧
      allNumericL ((splitOnDot d.data).getLast?.getD []) = false := by
  unfold specDomainOk
  have hd := str_eq_empty_iff d
  simp only [Bool.and_eq_true, Bool.not_eq_true', decide_eq_true_eq,
    decide_eq_false_iff_not, List.all_eq_true, isEmpty_false_iff, golen]
  tauto

theorem ValidateDomain_input {d : String} {e : DigError}
    (h : ValidateDomain d = some e) : e.type = ErrorType.Input := by
  unfold ValidateDomain at h
  repeat' split at h
  all_goals first
    | (injection h with h; subst h; rfl)
    | cases h
    | exact checkLabelsGo_input _ h

/-- C3: `ValidateDomain` returns nil exactly when the domain satisfies all
the spec's rules (non-empty; length ≤ 253; only letters, digits, hyphen,
underscore, dot; no consecutive dots; no leading/trailing dot or hyphen;
labels 1–63 characters not starting/ending with a hyphen nor ending with an
underscore; last label not entirely numeric), and every rejection is an
Input-kind error. -/
theorem ValidateDomain_iff_spec (d : String) :
    (ValidateDomain d = none ↔ specDomainOk d = true) ∧
    (∀ e, ValidateDomain d = some e → e.type = ErrorType.Input) := by
  refine ⟨?_, fun e h => ValidateDomain_input h⟩
  rw [ValidateDomain_none_iff, specDomainOk_iff]
  constructor
  · rintro ⟨h0, h1, h2, h3, h4a, h4b, h5a, h5b, h6, hlab, hnum⟩
    refine ⟨h0, h1, h2, h3, h4a, h4b, h5a, h5b, ?_, ?_⟩
    · intro lab hmem
      exact (labelErr_none lab).1 (hlab lab hmem)
    · obtain ⟨x, hx⟩ := splitOnDot_getLast_some d.data
      rw [hx]
      simpa using hnum x hx
  · rintro ⟨h0, h1, h2, h3, h4a, h4b, h5a, h5b, hlab, hnum⟩
    have hlab' : ∀ lab ∈ splitOnDot d.data, labelErr lab = none :=
      fun lab hm => (labelErr_none lab).2 (hlab lab hm)
    have hne : d.data ≠ [] := fun hn => h0 ((str_eq_empty_iff d).2 hn)
    have h6 : d.data.getLast? ≠ some '_' := by
      intro hu
      have hlast := lastLabel_getLast d.data hne h4b
      obtain ⟨x, hx⟩ := splitOnDot_getLast_some d.data
      rw [hx, hu] at hlast
      simp only [Option.getD_some] at hlast
      have hok := hlab x (getLast?_mem hx)
      unfold specLabelOk at hok
      simp [hlast] at hok
    refine ⟨h0, h1, h2, h3, h4a, h4b, h5a, h5b, h6, hlab', ?_⟩
    intro lst hlst
    have hg : (splitOnDot d.data).getLast?.getD [] = lst := by rw [hlst]; rfl
    rw [← hg]
    exact hnum

/-- Witness for C3: a domain with an underscore label and a hyphenated
label is accepted by both the code and the spec predicate. -/
theorem ValidateDomain_iff_spec_witness :
    ValidateDomain "_dmarc.mail-1.example.com" = none :=
  (ValidateDomain_iff_spec "_dmarc.mail-1.example.com").1.2 (by decide)

/-! ### Bridging lemmas for the bracketed-IPv6 claim -/

theorem ipKind_append {l1 : List Char} {k : Bool} (l2 : List Char)
    (h : ipKind l1 = some k) : ipKind (l1 ++ l2) = some k := by
  induction l1 with
  | nil => cases h
  | cons c rest ih =>
    by_cases hdot : c = '.'
    · simp only [ipKind, List.cons_append, if_pos hdot] at h ⊢
      exact h
    · by_cases hcol : c = ':'
      · simp only [ipKind, List.cons_append, if_neg hdot, if_pos hcol] at h ⊢
        exact h
      · simp only [ipKind, List.cons_append, if_neg hdot, if_neg hcol] at h ⊢
        exact ih h

theorem ipKind_true_mem {l : List Char} (h : ipKind l = some true) : ':' ∈ l := by
  induction l with
  | nil => cases h
  | cons c rest ih =>
    simp only [ipKind] at h
    split at h
    · cases h
    · split at h
      · rename_i hc
        simp [hc]
      · exact List.mem_cons_of_mem _ (ih h)

theorem goContainsL_single {c : Char} {l : List Char} (h : c ∈ l) :
    goContainsL [c] l = true := by
  induction l with
  | nil => cases h
  | cons x rest ih =>
    simp only [goContainsL, goHasPrefixL, Bool.or_eq_true]
    rcases List.mem_cons.1 h with rfl | hmem
    · left; simp [goHasPrefixL]
    · right; exact ih hmem

/-- `net.ParseIP` rejects any string starting with an opening bracket that
reaches the IPv6 parser. -/
theorem parseIPv6go_bracket (rest : List Char) :
    parseIPv6go ('[' :: rest) = none := by
  have h1 : goHasPrefixL ('[' :: rest) [':', ':'] = false := by
    simp [goHasPrefixL]
  have h2 : xtoi ('[' :: rest) = (0, 0, false) := by
    simp [xtoi, xtoiAux]
  simp [parseIPv6go, h1, parseIPv6Loop, h2]

theorem firstIdxOf_append_bracket : ∀ {l : List Char}, ']' ∉ l →
    firstIdxOf ']' (l ++ [']']) = some l.length := by
  intro l
  induction l with
  | nil => intro _; rfl
  | cons c rest ih =>
    intro h
    have hc : ¬(c = ']') := fun hc => h (by simp [hc])
    have hr : ']' ∉ rest := fun hm => h (List.mem_cons_of_mem _ hm)
    have hstep : firstIdxOf ']' ((c :: rest) ++ [']']) =
        match firstIdxOf ']' (rest ++ [']']) with
        | none => none
        | some i => some (i + 1) := by
      rw [List.cons_append]
      simp [firstIdxOf, hc]
    rw [hstep, ih hr, List.length_cons]

theorem firstIdxOf_some_of_mem {c : Char} {l : List Char} (h : c ∈ l) :
    ∃ i, firstIdxOf c l = some i := by
  induction l with
  | nil => cases h
  | cons x rest ih =>
    by_cases hx : x = c
    · exact ⟨0, by simp [firstIdxOf, hx]⟩
    · rcases List.mem_cons.1 h with rfl | hmem
      · exact absurd rfl hx
      · obtain ⟨i, hi⟩ := ih hmem
        exact ⟨i + 1, by simp [firstIdxOf, hx, hi]⟩

theorem lastIdxOf_some_of_mem {c : Char} {l : List Char} (h : c ∈ l) :
    ∃ i, lastIdxOf c l = some i := by
  obtain ⟨i, hi⟩ := firstIdxOf_some_of_mem (List.mem_reverse.2 h)
  exact ⟨l.length - 1 - i, by simp [lastIdxOf, hi]⟩

/-- A two-character `"]:"` substring cannot occur when the only closing
bracket is the final character. -/
theorem goContainsL_bracket_colon {l : List Char} (h : ']' ∉ l) :
    goContainsL [']', ':'] ('[' :: (l ++ [']'])) = false := by
  have main : ∀ l' : List Char, ']' ∉ l' → goContainsL [']', ':'] (l' ++ [']']) = false := by
    intro l'
    induction l' with
    | nil => intro _; rfl
    | cons c rest ih =>
      intro hn
      have hc : ¬(c = ']') := fun hc => hn (by simp [hc])
      have hr : ']' ∉ rest := fun hm => hn (List.mem_cons_of_mem _ hm)
      simp only [List.cons_append, goContainsL, goHasPrefixL, Bool.or_eq_false_iff]
      constructor
      · simp [hc]
      · exact ih hr
  simp only [goContainsL, goHasPrefixL, Bool.or_eq_false_iff]
  constructor
  · simp
  · exact main l h

/-- C10: a bracketed IPv6 literal without a port (shape `"[v6]"`: it starts
with `[` but contains no `]:`) is rejected by `Query` with an Input-kind
error whose message is `"invalid DNS server format: ..."`, with empty
records, zero query time, the raw argument as server, and no exchange
attempted (the outcome is the same for every environment). -/
theorem Query_bracketed_ipv6_no_port (env : Env) (d t v6 : String)
    (hdom : ValidateDomain d = none) (htype : ValidateRecordType t = none)
    (hkind : ipKind v6.data = some true) (hv6 : parseIPgo v6 ≠ none)
    (hbr : ']' ∉ v6.data) :
    Query env d t ("[" ++ v6 ++ "]") =
      { domain := d, recordType := t, records := [], server := "[" ++ v6 ++ "]",
        queryTime := 0,
        error := some (NewInputError ("invalid DNS server format: " ++ ("[" ++ v6 ++ "]"))
          (some (addrErrText ("[" ++ v6 ++ "]") "missing port in address"))) } := by
  have hdata : ("[" ++ v6 ++ "]").data = '[' :: (v6.data ++ [']']) := by
    rw [String.data_append, String.data_append]
    simp
  have hne : ¬("[" ++ v6 ++ "]" = "") := by
    intro h
    rw [str_eq_empty_iff, hdata] at h
    cases h
  have hmemcolon : ':' ∈ ("[" ++ v6 ++ "]").data := by
    rw [hdata]
    exact List.mem_cons_of_mem _ (List.mem_append_left _ (ipKind_true_mem hkind))
  have hcontains : goContains ("[" ++ v6 ++ "]") ":" = true := goContainsL_single hmemcolon
  have hc2 : goContains ("[" ++ v6 ++ "]") "\x5d:" = false := by
    unfold goContains
    rw [hdata]
    exact goContainsL_bracket_colon hbr
  have hparse : parseIPgo ("[" ++ v6 ++ "]") = none := by
    unfold parseIPgo
    rw [hdata]
    have hk : ipKind ('[' :: (v6.data ++ [']'])) = some true := by
      rw [show ipKind ('[' :: (v6.data ++ [']'])) = ipKind (v6.data ++ [']']) from rfl]
      exact ipKind_append _ hkind
    rw [hk]
    exact parseIPv6go_bracket _
  have hsplit : splitHostPort ("[" ++ v6 ++ "]") =
      .error (addrErrText ("[" ++ v6 ++ "]") "missing port in address") := by
    unfold splitHostPort
    dsimp only
    obtain ⟨i, hi⟩ := lastIdxOf_some_of_mem hmemcolon
    rw [hi]
    dsimp only
    rw [hdata]
    rw [if_pos (show (('[' :: (v6.data ++ [']'])).head? = some '[') from rfl)]
    have hfi : firstIdxOf ']' ('[' :: (v6.data ++ [']'])) = some (v6.data.length + 1) := by
      rw [show firstIdxOf ']' ('[' :: (v6.data ++ [']'])) =
          (match firstIdxOf ']' (v6.data ++ [']']) with
           | none => none
           | some i => some (i + 1)) from rfl,
        firstIdxOf_append_bracket hbr]
    rw [hfi]
    dsimp only
    rw [if_pos (by simp)]
  have hres : resolveServer env.resolvConf ("[" ++ v6 ++ "]") =
      .error (NewInputError ("invalid DNS server format: " ++ ("[" ++ v6 ++ "]"))
        (some (addrErrText ("[" ++ v6 ++ "]") "missing port in address"))) := by
    unfold resolveServer
    rw [if_neg hne]
    rw [if_neg (show ¬((goHasPrefix ("[" ++ v6 ++ "]") "[" &&
        goContains ("[" ++ v6 ++ "]") "\x5d:") = true) from by
      intro hh; rw [Bool.and_eq_true, hc2] at hh; exact absurd hh.2 (by simp))]
    rw [if_neg (show ¬((!goContains ("[" ++ v6 ++ "]") ":" ||
        (parseIPgo ("[" ++ v6 ++ "]")).isSome) = true) from by
      intro hh; rw [hcontains, hparse] at hh; simp at hh)]
    rw [hsplit]
  unfold Query
  rw [hdom, htype, hres]

/-- Witness for C10 at the concrete server `"[::1]"`. -/
theorem Query_bracketed_ipv6_no_port_witness :
    Query ⟨none, none, none, 0⟩ "example.com" "A" ("[" ++ "::1" ++ "]") =
      { domain := "example.com", recordType := "A", records := [],
        server := "[" ++ "::1" ++ "]", queryTime := 0,
        error := some (NewInputError ("invalid DNS server format: " ++ ("[" ++ "::1" ++ "]"))
          (some (addrErrText ("[" ++ "::1" ++ "]") "missing port in address"))) } :=
  Query_bracketed_ipv6_no_port ⟨none, none, none, 0⟩ "example.com" "A" "::1"
    (by decide) (by decide) (by decide) (by decide) (by decide)
